import Mathlib

/-!
# Neuro-Fabric core: shallow embedding and verification

A shallow embedding of the database-introspection / quality-analysis core of
the Neuro-Fabric repository, together with theorems settling the frozen
claims about its natural-language specification.

Conventions used throughout:
* Python / SQL numeric values are modelled as exact rationals (`ℚ`); machine
  floating point rounding is idealized away, but the *explicit* rounding the
  code performs (`round(x, 4)`) is modelled faithfully.
* SQL query results are passed to the embedded functions as explicit data
  (the rows / aggregates the query would return), computed by small Lean
  functions mirroring the SQL aggregate semantics (`COUNT`, `AVG`,
  `STDDEV`, `GROUP BY`, ...).
* Python `dict`s are modelled either as association lists (where insertion
  order matters) or as `String → Option _` maps (where only lookup matters).
-/

namespace NeuroFabric

/-- Python's `round` to `n = 4` decimal places (round-half-to-even on the
integer grid of 1/10000ths), on exact rationals.  Used wherever the source
calls `round(x, 4)`. -/
def roundHalfEven (q : ℚ) : ℤ :=
  let f : ℤ := ⌊q⌋
  let r : ℚ := q - f
  if r < 1/2 then f
  else if r > 1/2 then f + 1
  else if 2 ∣ f then f else f + 1

/-- `round(x, 4)` from Python, on exact rationals. -/
def round4 (q : ℚ) : ℚ := (roundHalfEven (q * 10000) : ℚ) / 10000

theorem round4_one : round4 1 = 1 := by
  norm_num [round4, roundHalfEven]

theorem round4_zero : round4 0 = 0 := by
  norm_num [round4, roundHalfEven]

/-! ## Pipeline state and the stage router (`src/agents/supervisor.py`)

`AgentState` (`src/core/state.py`) is a `TypedDict`; the router reads its
fields through `state.get(key, default)`, so an absent field and an empty
one are indistinguishable.  We model the collection-valued fields as lists
(Python dicts / lists; the router only tests truthiness, i.e. non-emptiness)
and `current_task` as an optional string with the router's `"pipeline"`
default. -/

/-- Truthiness-relevant shape of `AgentState` from `src/core/state.py`.
`schema`, `qualityReport`, `documentation` are dicts keyed by table name
(modelled as association lists of opaque payloads), `artifacts` and
`errors` are lists of strings. -/
structure AgentState where
  messages : List String
  currentTask : Option String
  schema : List (String × String)
  qualityReport : List (String × String)
  documentation : List (String × String)
  artifacts : List String
  errors : List String

/-- `_pipeline_router` from `src/agents/supervisor.py` (lines 43–78):
deterministic router for the full documentation pipeline, returning the
name of the next LangGraph node as a string. -/
def pipeline_router (state : AgentState) : String :=
  let current_task := state.currentTask.getD "pipeline"
  if current_task = "chat" then "chat_agent"
  else if state.schema.isEmpty then "schema_agent"
  else if state.qualityReport.isEmpty then "quality_agent"
  else if state.documentation.isEmpty then "ai_doc_agent"
  else if state.artifacts.isEmpty then "export_agent"
  else "__end__"

/-! ## PK uniqueness (`check_pk_uniqueness`, `src/tools/quality_tools.py`) -/

/-- Result shape of `check_pk_uniqueness` (the fields of the returned JSON
that carry data). -/
structure PkUniquenessResult where
  totalRows : ℕ
  uniquePkRows : ℕ
  uniquenessRate : ℚ
  deriving Repr, DecidableEq

/-- `check_pk_uniqueness` from `src/tools/quality_tools.py` (lines 147–208),
with the SQL evaluated on an explicit table: `rows` is the list of
primary-key tuples of the table (one entry per row).  The query `q2`
computes `total_rows = COUNT(*)` and `unique_pk_rows` as the number of
distinct PK tuples (`GROUP BY` the PK columns and count the groups).
The Python `total = row["total_rows"] or 1` coerces a falsy (zero) row
count to `1` before dividing. -/
def check_pk_uniqueness {α : Type} [DecidableEq α] (rows : List α) :
    PkUniquenessResult :=
  let total_rows := rows.length
  let unique_pk_rows := rows.dedup.length
  let total := if total_rows = 0 then 1 else total_rows
  { totalRows := total
    uniquePkRows := unique_pk_rows
    uniquenessRate := round4 ((unique_pk_rows : ℚ) / (total : ℚ)) }

/-! ## SQL aggregate semantics used by the quality analyzers -/

/-- SQL `AVG(col)` over the given (non-null) values: `NULL` (here `none`)
when there are no rows. -/
def sqlAvg (xs : List ℚ) : Option ℚ :=
  if xs.length = 0 then none else some (xs.sum / xs.length)

/-- SQL sample variance `VAR_SAMP(col)` over the given (non-null) values:
`NULL` when there are fewer than two rows.  `STDDEV(col)` is its square
root; since the source only ever (a) tests `STDDEV(...) == 0` and
(b) compares `|x−μ|/σ > t`, and `√v = 0 ↔ v = 0` while
`|x−μ|/√v > t ↔ (x−μ)² > t²·v` (for `v > 0`, `t ≥ 0`), we carry the
variance and use the squared forms, staying inside `ℚ`. -/
def sqlVarSamp (xs : List ℚ) : Option ℚ :=
  if xs.length < 2 then none
  else
    let μ := xs.sum / xs.length
    some ((xs.map fun x => (x - μ) ^ 2).sum / ((xs.length : ℚ) - 1))

/-! ## Z-score outlier detection (`detect_outliers_zscore`) -/

/-- Output shape of `detect_outliers_zscore`: the σ = 0 early return carries
an explicit error note and zero counts; the normal path carries the stats
and the outlier count (we record the variance `stddevSq = σ²` instead of
the irrational `σ`; see `sqlVarSamp`). -/
inductive ZscoreOutput where
  | noVariance (errorNote : String) (outlierCount : ℕ) (outlierPercentage : ℚ)
  | report (mean stddevSq : ℚ) (totalRows : ℕ) (outlierCount : ℕ)
      (outlierPercentage : ℚ)
  deriving Repr, DecidableEq

/-- `detect_outliers_zscore` from `src/tools/quality_tools.py`
(lines 325–414).  `xs` is the list of non-null values of the column (the
SQL aggregates run `WHERE col IS NOT NULL`).  Mirrors the source:
`mean_val` / `stddev_val` coerce a SQL `NULL` (or falsy `0`) to `0`;
`total_rows = stats["total_rows"] or 1`; if the standard deviation is zero
the function returns early with an explicit "no variation" note and zero
outliers, otherwise it counts values with `|x − μ|/σ > threshold`
(expressed squared, see `sqlVarSamp`; faithful for `threshold ≥ 0`, and the
source default is `3.0`). -/
def detect_outliers_zscore (xs : List ℚ) (threshold : ℚ) : ZscoreOutput :=
  let mean_val : ℚ := (sqlAvg xs).getD 0
  let var_val : ℚ := (sqlVarSamp xs).getD 0
  let total_rows : ℕ := if xs.length = 0 then 1 else xs.length
  if var_val = 0 then
    .noVariance "Standard deviation is zero - no variation in data" 0 0
  else
    let outlier_count :=
      (xs.filter fun x => (x - mean_val) ^ 2 > threshold ^ 2 * var_val).length
    .report mean_val var_val total_rows outlier_count
      ((outlier_count : ℚ) / (total_rows : ℚ) * 100)

/-! ## Theorems: C1, C3, C10 -/

/-- C1: For every pipeline state, the stage router's decision follows exactly
the level-triggered rule: `current_task = "chat"` routes to the chat agent;
otherwise an empty `schema` runs schema extraction; else an empty
`quality_report` runs quality analysis; else empty `documentation` hands off
to the documentation agent; else empty `artifacts` hands off to the export
agent; else the router returns the terminal `"__end__"` outcome — in
particular, with all four outputs non-empty, the decision is `"__end__"`
regardless of the content of the `errors` list. -/
theorem pipeline_router_level_triggered (s : AgentState) :
    (s.currentTask.getD "pipeline" = "chat" → pipeline_router s = "chat_agent") ∧
    (s.currentTask.getD "pipeline" ≠ "chat" → s.schema = [] →
      pipeline_router s = "schema_agent") ∧
    (s.currentTask.getD "pipeline" ≠ "chat" → s.schema ≠ [] → s.qualityReport = [] →
      pipeline_router s = "quality_agent") ∧
    (s.currentTask.getD "pipeline" ≠ "chat" → s.schema ≠ [] → s.qualityReport ≠ [] →
      s.documentation = [] → pipeline_router s = "ai_doc_agent") ∧
    (s.currentTask.getD "pipeline" ≠ "chat" → s.schema ≠ [] → s.qualityReport ≠ [] →
      s.documentation ≠ [] → s.artifacts = [] → pipeline_router s = "export_agent") ∧
    (s.currentTask.getD "pipeline" ≠ "chat" → s.schema ≠ [] → s.qualityReport ≠ [] →
      s.documentation ≠ [] → s.artifacts ≠ [] → pipeline_router s = "__end__") := by
  refine ⟨?_, ?_, ?_, ?_, ?_, ?_⟩ <;>
    · intros
      simp_all [pipeline_router, List.isEmpty_iff]

/-- Witness for C1: a concrete fully-populated state (with a non-empty
`errors` list) routes to `"__end__"`, and concrete partial states route to
the expected stages. -/
theorem pipeline_router_level_triggered_witness :
    pipeline_router
      { messages := [], currentTask := some "pipeline",
        schema := [("t", "s")], qualityReport := [("t", "q")],
        documentation := [("t", "d")], artifacts := ["a.json"],
        errors := ["boom", "bang"] } = "__end__" ∧
    pipeline_router
      { messages := [], currentTask := none,
        schema := [], qualityReport := [], documentation := [],
        artifacts := [], errors := ["boom"] } = "schema_agent" ∧
    pipeline_router
      { messages := [], currentTask := some "chat",
        schema := [], qualityReport := [], documentation := [],
        artifacts := [], errors := [] } = "chat_agent" := by
  refine ⟨?_, ?_, ?_⟩
  · exact (pipeline_router_level_triggered _).2.2.2.2.2 (by decide) (by decide)
      (by decide) (by decide) (by decide)
  · exact (pipeline_router_level_triggered _).2.1 (by decide) rfl
  · exact (pipeline_router_level_triggered _).1 (by decide)

/-- C3: for every numeric column whose non-null values have standard
deviation σ = 0 (equivalently, sample variance 0), `detect_outliers_zscore`
returns the early no-variance result: `outlier_count = 0` together with the
explicit note `"Standard deviation is zero - no variation in data"`, for
every threshold — the z-score division is never reached on this path. -/
theorem detect_outliers_zscore_sigma_zero (xs : List ℚ) (threshold : ℚ)
    (h : sqlVarSamp xs = some 0) :
    detect_outliers_zscore xs threshold =
      .noVariance "Standard deviation is zero - no variation in data" 0 0 := by
  unfold detect_outliers_zscore
  simp [h]

/-- Witness for C3: the constant column `[5, 5, 5]` has sample variance 0,
and the analyzer reports zero outliers with the no-variance note. -/
theorem detect_outliers_zscore_sigma_zero_witness :
    sqlVarSamp [(5 : ℚ), 5, 5] = some 0 ∧
    detect_outliers_zscore [(5 : ℚ), 5, 5] 3 =
      .noVariance "Standard deviation is zero - no variation in data" 0 0 := by
  have h : sqlVarSamp [(5 : ℚ), 5, 5] = some 0 := by
    norm_num [sqlVarSamp, List.sum_cons]
  exact ⟨h, detect_outliers_zscore_sigma_zero _ 3 h⟩

/-- C10: for every table with zero rows, `check_pk_uniqueness` never divides
by zero: the zero row count is coerced to a divisor of 1 (`total or 1`), so
the returned `uniqueness_rate` is `0.0` (and in particular not `1.0`) for an
empty table. -/
theorem check_pk_uniqueness_empty {α : Type} [DecidableEq α]
    (rows : List α) (h : rows = []) :
    (check_pk_uniqueness rows).totalRows = 1 ∧
    (check_pk_uniqueness rows).uniquenessRate = 0 ∧
    (check_pk_uniqueness rows).uniquenessRate ≠ 1 := by
  subst h
  refine ⟨rfl, ?_, ?_⟩ <;> simp [check_pk_uniqueness, round4_zero]

/-- Witness for C10: the empty table of single-column string keys. -/
theorem check_pk_uniqueness_empty_witness :
    (check_pk_uniqueness ([] : List String)).totalRows = 1 ∧
    (check_pk_uniqueness ([] : List String)).uniquenessRate = 0 ∧
    (check_pk_uniqueness ([] : List String)).uniquenessRate ≠ 1 :=
  check_pk_uniqueness_empty [] rfl

/-! ## JSON values and `json.dumps(..., sort_keys=True)`
(`src/agents/schema_agent.py`)

`_schema_hash(schema)` is `hashlib.md5(json.dumps(schema, sort_keys=True,
default=str).encode()).hexdigest()`.  We model the JSON value space and the
canonical serialization `json.dumps(..., sort_keys=True)` (default
separators `", "` / `": "`, recursive key sorting).  md5 is a fixed
deterministic function of the serialized string, so equal serializations
give equal digests; for the "different hash" direction we identify the hash
with its md5 preimage (i.e. md5 is idealized as collision-free). -/

/-- Decimal rendering of a natural number, fuel-indexed so the recursion is
structural (any fuel ≥ n suffices; `natStr` supplies `n + 1`). -/
def natStrAux : ℕ → ℕ → String
  | 0, _ => ""
  | fuel + 1, n =>
    if n < 10 then String.singleton (Char.ofNat (48 + n))
    else natStrAux fuel (n / 10) ++ String.singleton (Char.ofNat (48 + n % 10))

/-- Decimal rendering of a natural number (digits `'0'`–`'9'`). -/
def natStr (n : ℕ) : String := natStrAux (n + 1) n

/-- Decimal rendering of an integer (Python's rendering of an `int`). -/
def intStr (n : ℤ) : String :=
  if n < 0 then "-" ++ natStr n.natAbs else natStr n.natAbs

/-- JSON string escaping of one character, as performed by `json.dumps`
(quote, backslash, common control escapes, `\u00XX` for other control
characters; other characters pass through). -/
def escapeChar (c : Char) : String :=
  if c = '"' then "\\\""
  else if c = '\\' then "\\\\"
  else if c = '\n' then "\\n"
  else if c = '\t' then "\\t"
  else if c = '\r' then "\\r"
  else if c.toNat < 32 then
    "\\u00" ++ String.singleton (Char.ofNat (if c.toNat / 16 < 10 then 48 + c.toNat / 16 else 87 + c.toNat / 16))
      ++ String.singleton (Char.ofNat (if c.toNat % 16 < 10 then 48 + c.toNat % 16 else 87 + c.toNat % 16))
  else String.singleton c

/-- JSON rendering of a string literal: escaped and double-quoted. -/
def jstr (s : String) : String :=
  "\"" ++ String.join (s.data.map escapeChar) ++ "\""

/-- Python's `sep.join(parts)` (used by `json.dumps` with separators
`", "` and `": "`). -/
def joinWithSep (sep : String) : List String → String
  | [] => ""
  | [x] => x
  | x :: y :: xs => x ++ sep ++ joinWithSep sep (y :: xs)

/-- JSON value space: the values `json.loads` / the schema agent traffic in. -/
inductive Json where
  | null
  | bool (b : Bool)
  | num (n : ℤ)
  | str (s : String)
  | arr (elems : List Json)
  | obj (entries : List (String × Json))

/-- Lexicographic comparison of character lists by code point — the order
Python's `sorted` / `sort_keys=True` uses on `str` keys. -/
def charsLe : List Char → List Char → Bool
  | [], _ => true
  | _ :: _, [] => false
  | a :: as, b :: bs => if a < b then true else if b < a then false else charsLe as bs

theorem charsLe_cons_iff {a b : Char} {as bs : List Char} :
    charsLe (a :: as) (b :: bs) = true ↔ a < b ∨ (a = b ∧ charsLe as bs = true) := by
  by_cases h₁ : a < b
  · simp [charsLe, h₁]
  · by_cases h₂ : b < a
    · have hne : a ≠ b := fun h => absurd (h ▸ h₂) (lt_irrefl _)
      simp [charsLe, h₁, h₂, hne]
    · have hab : a = b := le_antisymm (not_lt.mp h₂) (not_lt.mp h₁)
      simp [charsLe, h₁, h₂, hab]

theorem charsLe_total : ∀ l₁ l₂ : List Char, charsLe l₁ l₂ = true ∨ charsLe l₂ l₁ = true
  | [], _ => Or.inl rfl
  | _ :: _, [] => Or.inr rfl
  | a :: as, b :: bs => by
    rcases lt_trichotomy a b with h | h | h
    · exact Or.inl (charsLe_cons_iff.mpr (Or.inl h))
    · subst h
      rcases charsLe_total as bs with h' | h'
      · exact Or.inl (charsLe_cons_iff.mpr (Or.inr ⟨rfl, h'⟩))
      · exact Or.inr (charsLe_cons_iff.mpr (Or.inr ⟨rfl, h'⟩))
    · exact Or.inr (charsLe_cons_iff.mpr (Or.inl h))

theorem charsLe_trans : ∀ {l₁ l₂ l₃ : List Char}, charsLe l₁ l₂ = true →
    charsLe l₂ l₃ = true → charsLe l₁ l₃ = true
  | [], _, _, _, _ => rfl
  | _ :: _, [], _, h, _ => by simp [charsLe] at h
  | _ :: _, _ :: _, [], _, h => by simp [charsLe] at h
  | a :: as, b :: bs, c :: cs, h₁, h₂ => by
    rcases charsLe_cons_iff.mp h₁ with hab | ⟨rfl, hab⟩ <;>
      rcases charsLe_cons_iff.mp h₂ with hbc | ⟨rfl, hbc⟩
    · exact charsLe_cons_iff.mpr (Or.inl (lt_trans hab hbc))
    · exact charsLe_cons_iff.mpr (Or.inl hab)
    · exact charsLe_cons_iff.mpr (Or.inl hbc)
    · exact charsLe_cons_iff.mpr (Or.inr ⟨rfl, charsLe_trans hab hbc⟩)

theorem charsLe_antisymm : ∀ {l₁ l₂ : List Char}, charsLe l₁ l₂ = true →
    charsLe l₂ l₁ = true → l₁ = l₂
  | [], [], _, _ => rfl
  | [], _ :: _, _, h => by simp [charsLe] at h
  | _ :: _, [], h, _ => by simp [charsLe] at h
  | a :: as, b :: bs, h₁, h₂ => by
    rcases charsLe_cons_iff.mp h₁ with hab | ⟨rfl, hab⟩ <;>
      rcases charsLe_cons_iff.mp h₂ with hba | ⟨hba, hba'⟩
    · exact absurd hba (lt_asymm hab)
    · exact absurd hab (hba ▸ lt_irrefl a)
    · exact absurd hba (lt_irrefl a)
    · exact congrArg (a :: ·) (charsLe_antisymm hab hba')

/-- Python string order (by code point) on `String`. -/
def strLe (s t : String) : Prop := charsLe s.data t.data = true

/-- Key order used by `sort_keys=True`: compare entries by key. -/
def keyLe (a b : String × Json) : Prop := strLe a.1 b.1

instance : DecidableRel keyLe :=
  fun a b => inferInstanceAs (Decidable (charsLe a.1.data b.1.data = true))

instance : IsTotal (String × Json) keyLe := ⟨fun a b => charsLe_total a.1.data b.1.data⟩

instance : IsTrans (String × Json) keyLe := ⟨fun _ _ _ h₁ h₂ => charsLe_trans h₁ h₂⟩

theorem keyLe_antisymm_fst {a b : String × Json} (h₁ : keyLe a b) (h₂ : keyLe b a) :
    a.1 = b.1 := by
  apply String.ext
  exact charsLe_antisymm h₁ h₂

mutual

/-- Canonicalize a JSON value by recursively sorting every object's entries
by key — the effect of `sort_keys=True`. -/
def canon : Json → Json
  | .null => .null
  | .bool b => .bool b
  | .num n => .num n
  | .str s => .str s
  | .arr xs => .arr (canonList xs)
  | .obj kvs => .obj (List.insertionSort keyLe (canonKvs kvs))

def canonList : List Json → List Json
  | [] => []
  | x :: xs => canon x :: canonList xs

def canonKvs : List (String × Json) → List (String × Json)
  | [] => []
  | (k, v) :: rest => (k, canon v) :: canonKvs rest

end

mutual

/-- Serialize a (pre-canonicalized) JSON value in `json.dumps` syntax with
the default separators `", "` / `": "`. -/
def jdumpRaw : Json → String
  | .null => "null"
  | .bool true => "true"
  | .bool false => "false"
  | .num n => intStr n
  | .str s => jstr s
  | .arr xs => "[" ++ joinWithSep ", " (jdumpRawList xs) ++ "]"
  | .obj kvs => "\x7b" ++ joinWithSep ", " (jdumpRawKvs kvs) ++ "\x7d"

def jdumpRawList : List Json → List String
  | [] => []
  | x :: xs => jdumpRaw x :: jdumpRawList xs

def jdumpRawKvs : List (String × Json) → List String
  | [] => []
  | (k, v) :: rest => (jstr k ++ ": " ++ jdumpRaw v) :: jdumpRawKvs rest

end

/-- `json.dumps(j, sort_keys=True)` with default separators. -/
def json_dumps_sorted (j : Json) : String := jdumpRaw (canon j)

/-- `_schema_hash` from `src/agents/schema_agent.py` (lines 69–70), modelled
by the exact string md5 is applied to (see the section comment: md5 is
deterministic, and we idealize it as collision-free). -/
def schema_hash (schema : Json) : String := json_dumps_sorted schema

/-! ### Length and canonicalization lemmas for the serializer -/

theorem one_le_natStr_length (n : ℕ) : 1 ≤ (natStr n).length := by
  show 1 ≤ (natStrAux (n + 1) n).length
  unfold natStrAux
  split
  · exact le_of_eq rfl.symm
  · rw [String.length_append]
    have h : (String.singleton (Char.ofNat (48 + n % 10))).length = 1 := rfl
    omega

theorem one_le_intStr_length (n : ℤ) : 1 ≤ (intStr n).length := by
  unfold intStr
  split
  · rw [String.length_append]
    have := one_le_natStr_length n.natAbs
    omega
  · exact one_le_natStr_length n.natAbs

theorem jstr_length (s : String) :
    (jstr s).length = 2 + (String.join (s.data.map escapeChar)).length := by
  unfold jstr
  rw [String.length_append, String.length_append]
  have h1 : ("\"" : String).length = 1 := rfl
  omega

theorem two_le_jstr_length (s : String) : 2 ≤ (jstr s).length := by
  rw [jstr_length]; omega

theorem joinWithSep_length (sep : String) : ∀ l : List String,
    (joinWithSep sep l).length = (l.map String.length).sum + sep.length * (l.length - 1)
  | [] => by simp [joinWithSep]
  | [x] => by simp [joinWithSep]
  | x :: y :: xs => by
    have ih := joinWithSep_length sep (y :: xs)
    show (x ++ sep ++ joinWithSep sep (y :: xs)).length = _
    rw [String.length_append, String.length_append, ih]
    simp only [List.map_cons, List.sum_cons, List.length_cons]
    have h2 : xs.length + 1 + 1 - 1 = xs.length + 1 := rfl
    have h3 : xs.length + 1 - 1 = xs.length := rfl
    rw [h2, h3, Nat.mul_succ]
    ring

theorem jdumpRawList_eq_map (xs : List Json) : jdumpRawList xs = xs.map jdumpRaw := by
  induction xs with
  | nil => rfl
  | cons x rest ih => simp [jdumpRawList, ih]

theorem jdumpRawKvs_eq_map (kvs : List (String × Json)) :
    jdumpRawKvs kvs = kvs.map fun kv => jstr kv.1 ++ ": " ++ jdumpRaw kv.2 := by
  induction kvs with
  | nil => rfl
  | cons kv rest ih => cases kv; simp [jdumpRawKvs, ih]

theorem canonList_eq_map (xs : List Json) : canonList xs = xs.map canon := by
  induction xs with
  | nil => rfl
  | cons x rest ih => simp [canonList, ih]

theorem canonKvs_eq_map (kvs : List (String × Json)) :
    canonKvs kvs = kvs.map fun kv => (kv.1, canon kv.2) := by
  induction kvs with
  | nil => rfl
  | cons kv rest ih => cases kv; simp [canonKvs, ih]

theorem canonKvs_map_fst (kvs : List (String × Json)) :
    (canonKvs kvs).map Prod.fst = kvs.map Prod.fst := by
  rw [canonKvs_eq_map, List.map_map]
  rfl

theorem canonKvs_length (kvs : List (String × Json)) :
    (canonKvs kvs).length = kvs.length := by
  rw [canonKvs_eq_map, List.length_map]

theorem canonKvs_append (l₁ l₂ : List (String × Json)) :
    canonKvs (l₁ ++ l₂) = canonKvs l₁ ++ canonKvs l₂ := by
  rw [canonKvs_eq_map, canonKvs_eq_map, canonKvs_eq_map, List.map_append]

theorem canonList_append (l₁ l₂ : List Json) :
    canonList (l₁ ++ l₂) = canonList l₁ ++ canonList l₂ := by
  rw [canonList_eq_map, canonList_eq_map, canonList_eq_map, List.map_append]

theorem one_le_jdumpRaw_length (j : Json) : 1 ≤ (jdumpRaw j).length := by
  cases j with
  | null => decide
  | bool b => cases b <;> decide
  | num n => exact one_le_intStr_length n
  | str s => exact le_trans (by omega) (two_le_jstr_length s)
  | arr xs =>
    show 1 ≤ ("[" ++ joinWithSep ", " (jdumpRawList xs) ++ "]").length
    rw [String.length_append, String.length_append]
    have h : ("[" : String).length = 1 := rfl
    omega
  | obj kvs =>
    show 1 ≤ ("\x7b" ++ joinWithSep ", " (jdumpRawKvs kvs) ++ "\x7d").length
    rw [String.length_append, String.length_append]
    have h : ("\x7b" : String).length = 1 := rfl
    omega

/-- Serialized length of one object entry `"key": value`. -/
def entryLen (kv : String × Json) : ℕ :=
  (jstr kv.1).length + 2 + (jdumpRaw kv.2).length

theorem jdumpRaw_obj_length (kvs : List (String × Json)) :
    (jdumpRaw (.obj kvs)).length = 2 + ((kvs.map entryLen).sum + 2 * (kvs.length - 1)) := by
  show ("\x7b" ++ joinWithSep ", " (jdumpRawKvs kvs) ++ "\x7d").length = _
  rw [String.length_append, String.length_append, joinWithSep_length]
  have h1 : (jdumpRawKvs kvs).map String.length = kvs.map entryLen := by
    rw [jdumpRawKvs_eq_map, List.map_map]
    apply List.map_congr_left
    intro kv _
    show (jstr kv.1 ++ ": " ++ jdumpRaw kv.2).length = _
    rw [String.length_append, String.length_append]
    rfl
  have h2 : (jdumpRawKvs kvs).length = kvs.length := by
    rw [jdumpRawKvs_eq_map, List.length_map]
  rw [h1, h2]
  have h3 : ("\x7b" : String).length = 1 := rfl
  have h4 : ("\x7d" : String).length = 1 := rfl
  have h5 : (", " : String).length = 2 := rfl
  rw [h3, h4, h5]
  omega

theorem jdumpRaw_arr_length (xs : List Json) :
    (jdumpRaw (.arr xs)).length =
      2 + ((xs.map fun j => (jdumpRaw j).length).sum + 2 * (xs.length - 1)) := by
  show ("[" ++ joinWithSep ", " (jdumpRawList xs) ++ "]").length = _
  rw [String.length_append, String.length_append, joinWithSep_length]
  have h1 : (jdumpRawList xs).map String.length = xs.map fun j => (jdumpRaw j).length := by
    rw [jdumpRawList_eq_map, List.map_map]
    rfl
  have h2 : (jdumpRawList xs).length = xs.length := by
    rw [jdumpRawList_eq_map, List.length_map]
  rw [h1, h2]
  have h3 : ("[" : String).length = 1 := rfl
  have h4 : ("]" : String).length = 1 := rfl
  have h5 : (", " : String).length = 2 := rfl
  rw [h3, h4, h5]
  omega

theorem jdump_canon_obj_length (kvs : List (String × Json)) :
    (jdumpRaw (canon (.obj kvs))).length =
      2 + (((canonKvs kvs).map entryLen).sum + 2 * (kvs.length - 1)) := by
  show (jdumpRaw (Json.obj (List.insertionSort keyLe (canonKvs kvs)))).length = _
  rw [jdumpRaw_obj_length]
  have hperm : List.Perm (List.insertionSort keyLe (canonKvs kvs)) (canonKvs kvs) :=
    List.perm_insertionSort keyLe (canonKvs kvs)
  rw [(hperm.map entryLen).sum_eq, hperm.length_eq, canonKvs_length]

theorem jdump_canon_arr_length (xs : List Json) :
    (jdumpRaw (canon (.arr xs))).length =
      2 + (((canonList xs).map fun j => (jdumpRaw j).length).sum + 2 * (xs.length - 1)) := by
  show (jdumpRaw (Json.arr (canonList xs))).length = _
  rw [jdumpRaw_arr_length]
  rw [canonList_eq_map, List.length_map]

theorem schema_hash_obj_length (kvs : List (String × Json)) :
    (schema_hash (.obj kvs)).length =
      2 + (((canonKvs kvs).map entryLen).sum + 2 * (kvs.length - 1)) :=
  jdump_canon_obj_length kvs

/-- Two key-sorted entry lists that are permutations of each other, with
pairwise-distinct keys, are equal (keys determine the order; distinctness
settles equal-key ties). -/
theorem eq_of_perm_of_sorted_keys :
    ∀ {l₁ l₂ : List (String × Json)}, List.Perm l₁ l₂ →
      l₁.Sorted keyLe → l₂.Sorted keyLe → (l₁.map Prod.fst).Nodup → l₁ = l₂ := by
  intro l₁
  induction l₁ with
  | nil =>
    intro l₂ hp _ _ _
    exact hp.nil_eq
  | cons a l₁ ih =>
    intro l₂ hp hs₁ hs₂ hn
    cases l₂ with
    | nil => exact absurd hp.symm.nil_eq (by simp)
    | cons b l₂ =>
      have hab : a = b := by
        by_contra hne
        have hbl : b ∈ l₁ := by
          rcases List.mem_cons.mp (hp.symm.subset (List.mem_cons_self b l₂)) with h | h
          · exact absurd h.symm hne
          · exact h
        have hal : a ∈ l₂ := by
          rcases List.mem_cons.mp (hp.subset (List.mem_cons_self a l₁)) with h | h
          · exact absurd h hne
          · exact h
        have h₁ : keyLe a b := (List.sorted_cons.mp hs₁).1 b hbl
        have h₂ : keyLe b a := (List.sorted_cons.mp hs₂).1 a hal
        have hfst : a.1 = b.1 := keyLe_antisymm_fst h₁ h₂
        have hmem : a.1 ∈ l₁.map Prod.fst := by
          rw [hfst]
          exact List.mem_map_of_mem Prod.fst hbl
        have hn' : a.1 ∉ l₁.map Prod.fst := by
          have := hn
          rw [List.map_cons, List.nodup_cons] at this
          exact this.1
        exact hn' hmem
      subst hab
      have htl : l₁ = l₂ := by
        apply ih hp.cons_inv (List.sorted_cons.mp hs₁).2 (List.sorted_cons.mp hs₂).2
        have := hn
        rw [List.map_cons, List.nodup_cons] at this
        exact this.2
      rw [htl]

/-- Sorting by key is invariant under permutation of the input, given
pairwise-distinct keys. -/
theorem insertionSort_eq_of_perm {l₁ l₂ : List (String × Json)}
    (hp : List.Perm l₁ l₂) (hn : (l₁.map Prod.fst).Nodup) :
    List.insertionSort keyLe l₁ = List.insertionSort keyLe l₂ := by
  apply eq_of_perm_of_sorted_keys
  · exact (List.perm_insertionSort keyLe l₁).trans
      (hp.trans (List.perm_insertionSort keyLe l₂).symm)
  · exact List.sorted_insertionSort keyLe l₁
  · exact List.sorted_insertionSort keyLe l₂
  · exact (((List.perm_insertionSort keyLe l₁).map Prod.fst).nodup_iff).mpr hn

/-! ## Theorems: C6 -/

/-- C6: for every schema map, computing the schema fingerprint hash twice —
including once with the map's key order permuted (distinct keys, as in a
Python dict) — yields the identical hash, while hashing the same map after
adding one column to any table (any position in the map, any position of
the `"columns"` entry inside the table object, appending any column value)
yields a different hash. -/
theorem schema_hash_canonical :
    (∀ kvs₁ kvs₂ : List (String × Json), List.Perm kvs₁ kvs₂ →
        (kvs₁.map Prod.fst).Nodup →
        schema_hash (.obj kvs₁) = schema_hash (.obj kvs₂)) ∧
    (∀ (pre post : List (String × Json)) (t : String)
        (tpre tpost : List (String × Json)) (cols : List Json) (c : Json),
        schema_hash (.obj (pre ++
            (t, .obj (tpre ++ ("columns", .arr (cols ++ [c])) :: tpost)) :: post)) ≠
        schema_hash (.obj (pre ++
            (t, .obj (tpre ++ ("columns", .arr cols) :: tpost)) :: post))) := by
  constructor
  · intro kvs₁ kvs₂ hp hn
    show jdumpRaw (canon (.obj kvs₁)) = jdumpRaw (canon (.obj kvs₂))
    show jdumpRaw (Json.obj (List.insertionSort keyLe (canonKvs kvs₁))) = _
    have heq : List.insertionSort keyLe (canonKvs kvs₁) =
        List.insertionSort keyLe (canonKvs kvs₂) := by
      apply insertionSort_eq_of_perm
      · rw [canonKvs_eq_map, canonKvs_eq_map]
        exact hp.map _
      · rw [canonKvs_map_fst]
        exact hn
    rw [heq]
    rfl
  · intro pre post t tpre tpost cols c heq
    have hlen := congrArg String.length heq
    rw [schema_hash_obj_length, schema_hash_obj_length] at hlen
    rw [canonKvs_append, canonKvs_append] at hlen
    simp only [canonKvs, List.map_append, List.sum_append, List.map_cons,
      List.sum_cons, List.length_append, List.length_cons] at hlen
    have htbl : ∀ X : List Json,
        entryLen (t, canon (.obj (tpre ++ ("columns", .arr X) :: tpost))) =
          (jstr t).length + 2 + (2 + (((canonKvs tpre).map entryLen).sum +
            entryLen ("columns", canon (.arr X)) +
            ((canonKvs tpost).map entryLen).sum +
            2 * (tpre.length + (tpost.length + 1) - 1))) := by
      intro X
      show (jstr t).length + 2 +
          (jdumpRaw (canon (.obj (tpre ++ ("columns", .arr X) :: tpost)))).length = _
      rw [jdump_canon_obj_length, canonKvs_append]
      simp only [canonKvs, List.map_append, List.sum_append, List.map_cons,
        List.sum_cons, List.length_append, List.length_cons]
      ring
    rw [htbl, htbl] at hlen
    have hcolsEntry : ∀ X : List Json,
        entryLen ("columns", canon (.arr X)) =
          (jstr "columns").length + 2 +
            (2 + (((canonList X).map fun j => (jdumpRaw j).length).sum +
              2 * (X.length - 1))) := by
      intro X
      show (jstr "columns").length + 2 + (jdumpRaw (canon (.arr X))).length = _
      rw [jdump_canon_arr_length]
    rw [hcolsEntry, hcolsEntry] at hlen
    rw [canonList_append] at hlen
    simp only [canonList, List.map_append, List.sum_append, List.map_cons,
      List.sum_cons, List.sum_nil, List.length_append, List.length_cons,
      List.length_nil] at hlen
    have hc : 1 ≤ (jdumpRaw (canon c)).length := one_le_jdumpRaw_length (canon c)
    omega

/-- Witness for C6: permuting the two-table map `{"b": 2, "a": "x"}` leaves
the hash unchanged, and appending a column to the table object changes it. -/
theorem schema_hash_canonical_witness :
    List.Perm [("b", Json.num 2), ("a", Json.str "x")]
      [("a", Json.str "x"), ("b", Json.num 2)] ∧
    ((["b", "a"] : List String).Nodup) ∧
    schema_hash (.obj [("b", Json.num 2), ("a", Json.str "x")]) =
      schema_hash (.obj [("a", Json.str "x"), ("b", Json.num 2)]) ∧
    schema_hash (.obj [("t", .obj [("columns", .arr [Json.str "c1", Json.str "c2"])])]) ≠
      schema_hash (.obj [("t", .obj [("columns", .arr [Json.str "c1"])])]) := by
  refine ⟨List.Perm.swap _ _ _, by decide, ?_, ?_⟩
  · exact schema_hash_canonical.1 _ _ (List.Perm.swap _ _ _) (by decide)
  · exact schema_hash_canonical.2 [] [] "t" [] [] [Json.str "c1"] (Json.str "c2")

/-! ## Schema agent cache substitution (`schema_agent_node`) -/

/-- Python truthiness on JSON values (`if cached and ...`). -/
def truthy : Json → Bool
  | .null => false
  | .bool b => b
  | .num n => decide (n ≠ 0)
  | .str s => decide (s ≠ "")
  | .arr xs => !xs.isEmpty
  | .obj kvs => !kvs.isEmpty

/-- The cache-substitution step of `schema_agent_node`
(`src/agents/schema_agent.py`, lines 124–131): `cached` is the result of
`_load_cached_schema()` (`none` when the cache file is absent or
unreadable), `fresh` the freshly extracted schema; when the cache is truthy
and the two fingerprints agree, the cached object is substituted for the
fresh one, otherwise the fresh schema is kept. -/
def schema_agent_cache_select (cached : Option Json) (fresh : Json) : Json :=
  match cached with
  | some c => if truthy c ∧ schema_hash c = schema_hash fresh then c else fresh
  | none => fresh

theorem two_lt_schema_hash_obj_length (kvs : List (String × Json))
    (h : kvs ≠ []) : 2 < (schema_hash (.obj kvs)).length := by
  rw [schema_hash_obj_length]
  cases kvs with
  | nil => exact absurd rfl h
  | cons kv rest =>
    cases kv with
    | mk k v =>
      simp only [canonKvs, List.map_cons, List.sum_cons]
      have h1 : 2 ≤ (jstr k).length := two_le_jstr_length k
      have h2 : 1 ≤ (jdumpRaw (canon v)).length := one_le_jdumpRaw_length (canon v)
      have h3 : entryLen (k, canon v) = (jstr k).length + 2 + (jdumpRaw (canon v)).length := rfl
      omega

/-! ## Theorems: C7 -/

/-- C7: whenever a cached schema snapshot exists and its fingerprint hash
equals the hash of the freshly extracted schema (both being schema maps,
i.e. JSON objects), the schema extraction node keeps the previously cached
schema object as the schema for this run; on hash mismatch or an absent cache,
the freshly extracted schema is returned. -/
theorem schema_agent_cache_select_spec :
    (∀ ckvs skvs : List (String × Json),
        schema_hash (.obj ckvs) = schema_hash (.obj skvs) →
        schema_agent_cache_select (some (.obj ckvs)) (.obj skvs) = .obj ckvs) ∧
    (∀ fresh : Json, schema_agent_cache_select none fresh = fresh) ∧
    (∀ c fresh : Json, schema_hash c ≠ schema_hash fresh →
        schema_agent_cache_select (some c) fresh = fresh) := by
  refine ⟨?_, fun _ => rfl, ?_⟩
  · intro ckvs skvs hh
    cases ckvs with
    | nil =>
      have hs : skvs = [] := by
        by_contra hne
        have := two_lt_schema_hash_obj_length skvs hne
        have hlen := congrArg String.length hh
        have h0 : (schema_hash (.obj ([] : List (String × Json)))).length = 2 := rfl
        omega
      subst hs
      rfl
    | cons kv rest =>
      show (if truthy (.obj (kv :: rest)) ∧ _ then _ else _) = _
      rw [if_pos]
      exact ⟨by simp [truthy], hh⟩
  · intro c fresh hne
    show (if truthy c ∧ schema_hash c = schema_hash fresh then c else fresh) = fresh
    rw [if_neg]
    rintro ⟨-, h⟩
    exact hne h

/-- Witness for C7: a concrete matching cache is substituted; a concrete
mismatching cache and an absent cache fall through to the fresh schema. -/
theorem schema_agent_cache_select_spec_witness :
    schema_hash (.obj [("t", Json.null)]) = schema_hash (.obj [("t", Json.null)]) ∧
    schema_agent_cache_select (some (.obj [("t", Json.null)])) (.obj [("t", Json.null)]) =
      .obj [("t", Json.null)] ∧
    schema_agent_cache_select none (Json.str "fresh") = Json.str "fresh" ∧
    schema_hash Json.null ≠ schema_hash (Json.bool true) ∧
    schema_agent_cache_select (some Json.null) (Json.bool true) = Json.bool true := by
  refine ⟨rfl, ?_, ?_, by decide, ?_⟩
  · exact schema_agent_cache_select_spec.1 _ _ rfl
  · exact schema_agent_cache_select_spec.2.1 _
  · exact schema_agent_cache_select_spec.2.2 _ _ (by decide)

/-! ## Table completeness (`compute_table_completeness`) -/

/-- SQL `AVG(CASE WHEN col IS NULL THEN 1.0 ELSE 0.0 END)` over a table with
`total` rows of which `nullCnt` are NULL in the column: the per-column null
rate, or SQL `NULL` when the table has no rows. -/
def sqlNullRateAvg (nullCnt total : ℕ) : Option ℚ :=
  if total = 0 then none else some ((nullCnt : ℚ) / (total : ℚ))

/-- Result shape of `compute_table_completeness` (data-carrying JSON
fields). -/
structure CompletenessResult where
  totalRows : ℕ
  overallCompleteness : ℚ
  columnNullRates : List (String × ℚ)

/-- `compute_table_completeness` from `src/tools/quality_tools.py`
(lines 264–318), with the SQL evaluated on an explicit table: `cols` pairs
each column name with its NULL count and `total` is the row count.  Per
column the code stores `round(float(val), 4)` when the SQL average is
non-NULL and `0.0` otherwise; `overall` is
`1.0 - sum(rates)/len(rates)` when the rate dict is non-empty and `1.0`
otherwise, and the reported value is `round(overall, 4)`. -/
def compute_table_completeness (cols : List (String × ℕ)) (total : ℕ) :
    CompletenessResult :=
  let per_col_null_rates : List (String × ℚ) :=
    cols.map fun c =>
      (c.1, match sqlNullRateAvg c.2 total with
        | none => 0
        | some v => round4 v)
  let overall : ℚ :=
    if per_col_null_rates.isEmpty then 1
    else 1 - ((per_col_null_rates.map Prod.snd).sum / (per_col_null_rates.length : ℚ))
  { totalRows := total
    overallCompleteness := round4 overall
    columnNullRates := per_col_null_rates }

/-! ## Theorems: C2 -/

theorem roundHalfEven_intCast (n : ℤ) : roundHalfEven (n : ℚ) = n := by
  unfold roundHalfEven
  norm_num

theorem round4_of_mul_eq_intCast {q : ℚ} {n : ℤ} (h : q * 10000 = (n : ℚ)) :
    round4 q = (n : ℚ) / 10000 := by
  rw [round4, h, roundHalfEven_intCast]

theorem round4_one_ten_thousandth : round4 ((1 : ℚ)/10000) = 1/10000 := by
  have h := round4_of_mul_eq_intCast (q := (1 : ℚ)/10000) (n := 1) (by norm_num)
  simpa using h

theorem round4_29999_30000 : round4 (29999/30000 : ℚ) = 1 := by
  have hm : (29999/30000 : ℚ) * 10000 = 29999/3 := by norm_num
  have hf : ⌊(29999/3 : ℚ)⌋ = 9999 := by norm_num
  have hr : roundHalfEven (29999/3 : ℚ) = 10000 := by
    unfold roundHalfEven
    rw [hf]
    norm_num
  rw [round4, hm, hr]
  norm_num

theorem completeness_overall_eq (cols : List (String × ℕ)) (total : ℕ)
    (hne : cols ≠ []) :
    (compute_table_completeness cols total).overallCompleteness =
      round4 (1 - (((compute_table_completeness cols total).columnNullRates.map
        Prod.snd).sum / (cols.length : ℚ))) := by
  simp only [compute_table_completeness]
  rw [if_neg, List.length_map]
  simp [List.isEmpty_iff, hne]

theorem completeness_zero_row_rate (kv : String × ℕ) :
    (match sqlNullRateAvg kv.2 0 with
      | none => (0 : ℚ)
      | some v => round4 v) = 0 := by
  simp [sqlNullRateAvg]

theorem completeness_empty_cols (total : ℕ) :
    (compute_table_completeness [] total).overallCompleteness = 1 := by
  simp [compute_table_completeness, round4_one]

theorem completeness_zero_rows (cols : List (String × ℕ)) :
    (compute_table_completeness cols 0).overallCompleteness = 1 := by
  rcases eq_or_ne cols [] with rfl | hne
  · exact completeness_empty_cols 0
  · rw [completeness_overall_eq cols 0 hne]
    have hsum : ((compute_table_completeness cols 0).columnNullRates.map
        Prod.snd).sum = 0 := by
      apply List.sum_eq_zero
      intro x hx
      simp only [compute_table_completeness, List.map_map, List.mem_map,
        Function.comp] at hx
      obtain ⟨kv, -, hkv⟩ := hx
      rw [← hkv]
      exact completeness_zero_row_rate kv
    rw [hsum]
    norm_num [round4_one]

/-- C2, counterexample to the claim as stated: for the three-column table
with 10000 rows and NULL counts (1, 0, 0), the reported per-column null
rates are (0.0001, 0, 0), so `1 − mean(null_rate)` is `29999/30000 ≈
0.999966…`, but the reported `overall_completeness` is the final
`round(·, 4)` of that — exactly `1.0` — so the two differ. -/
theorem compute_table_completeness_round_counterexample :
    (compute_table_completeness [("a", 1), ("b", 0), ("c", 0)] 10000).overallCompleteness = 1 ∧
    1 - (((compute_table_completeness [("a", 1), ("b", 0), ("c", 0)] 10000).columnNullRates.map
        Prod.snd).sum / 3) = 29999/30000 ∧
    (29999/30000 : ℚ) ≠ 1 := by
  have hrates : (compute_table_completeness
      [("a", 1), ("b", 0), ("c", 0)] 10000).columnNullRates =
      [("a", 1/10000), ("b", 0), ("c", 0)] := by
    simp only [compute_table_completeness, sqlNullRateAvg, List.map_cons, List.map_nil]
    norm_num [round4_one_ten_thousandth, round4_zero]
  refine ⟨?_, ?_, by norm_num⟩
  · rw [completeness_overall_eq _ _ (by simp), hrates]
    have h3 : (([("a", (1:ℚ)/10000), ("b", 0), ("c", 0)].map Prod.snd).sum /
        (([("a", 1), ("b", 0), ("c", 0)] : List (String × ℕ)).length : ℚ)) = 1/30000 := by
      norm_num
    rw [h3]
    have h4 : (1 : ℚ) - 1/30000 = 29999/30000 := by norm_num
    rw [h4, round4_29999_30000]
  · rw [hrates]
    norm_num

/-- C2, amended: `compute_table_completeness` reports `overall_completeness`
equal to `round(1 − mean(reported per-column null rates), 4)` — i.e. equal
to 1 minus the mean up to one final rounding to 4 decimal places — and it
reports exactly `1.0` when the column list is empty and when the table has
zero rows (every per-column null rate then counts as 0). -/
theorem compute_table_completeness_spec :
    (∀ (cols : List (String × ℕ)) (total : ℕ), cols ≠ [] →
      (compute_table_completeness cols total).overallCompleteness =
        round4 (1 - (((compute_table_completeness cols total).columnNullRates.map
          Prod.snd).sum / (cols.length : ℚ)))) ∧
    (∀ total : ℕ, (compute_table_completeness [] total).overallCompleteness = 1) ∧
    (∀ cols : List (String × ℕ),
      (compute_table_completeness cols 0).overallCompleteness = 1) :=
  ⟨completeness_overall_eq, completeness_empty_cols, completeness_zero_rows⟩

/-- Witness for C2 (amended): concrete instances of the three clauses. -/
theorem compute_table_completeness_spec_witness :
    (([("a", 1)] : List (String × ℕ)) ≠ []) ∧
    (compute_table_completeness [("a", 1)] 4).overallCompleteness =
      round4 (1 - (((compute_table_completeness [("a", 1)] 4).columnNullRates.map
        Prod.snd).sum / ((([("a", 1)] : List (String × ℕ)).length : ℚ)))) ∧
    (compute_table_completeness [] 7).overallCompleteness = 1 ∧
    (compute_table_completeness [("a", 0), ("b", 3)] 0).overallCompleteness = 1 := by
  refine ⟨by simp, ?_, ?_, ?_⟩
  · exact compute_table_completeness_spec.1 [("a", 1)] 4 (by simp)
  · exact compute_table_completeness_spec.2.1 7
  · exact compute_table_completeness_spec.2.2 [("a", 0), ("b", 3)]

/-! ## Benford law analysis (`benford_law_analysis`) -/

/-- The hardcoded `benford_expected` table from `benford_law_analysis`
(`src/tools/quality_tools.py`, lines 640–643): the standard Benford
frequencies rounded to three decimals, with `.get(digit, 0)` semantics for
any other argument. -/
def benford_expected (d : ℕ) : ℚ :=
  match d with
  | 1 => 301/1000
  | 2 => 176/1000
  | 3 => 125/1000
  | 4 => 97/1000
  | 5 => 79/1000
  | 6 => 67/1000
  | 7 => 58/1000
  | 8 => 51/1000
  | 9 => 46/1000
  | _ => 0

/-- Numerators of the table over 1000 (used to build exactly-proportional
datasets). -/
def benfordNum (d : ℕ) : ℕ :=
  match d with
  | 1 => 301
  | 2 => 176
  | 3 => 125
  | 4 => 97
  | 5 => 79
  | 6 => 67
  | 7 => 58
  | 8 => 51
  | 9 => 46
  | _ => 0

/-- The nine possible leading digits. -/
def benfordDigits : List ℕ := [1, 2, 3, 4, 5, 6, 7, 8, 9]

/-- The rows returned by the leading-digit `GROUP BY` query: the digits
that actually occur in the data (`counts d` is the number of positive
values of the column whose leading decimal digit is `d`; a digit with
count 0 produces no row). -/
def benford_rows (counts : ℕ → ℕ) : List ℕ :=
  benfordDigits.filter fun d => counts d ≠ 0

/-- `total_count = sum(r["count"] for r in rows)`. -/
def benford_total (counts : ℕ → ℕ) : ℕ :=
  ((benford_rows counts).map counts).sum

/-- The chi-square accumulation loop of `benford_law_analysis`: one term
per returned row (digit present in the data), guarded by
`if expected_count > 0`. -/
def benford_chi_square (counts : ℕ → ℕ) : ℚ :=
  ((benford_rows counts).map fun d =>
    if benford_expected d * (benford_total counts : ℚ) > 0 then
      ((counts d : ℚ) - benford_expected d * (benford_total counts : ℚ)) ^ 2 /
        (benford_expected d * (benford_total counts : ℚ))
    else 0).sum

/-- Output shape of `benford_law_analysis` (the risk message strings are
presentation only and are omitted). -/
inductive BenfordOutput where
  | error (msg : String)
  | report (totalValues : ℕ) (chiSquare : ℚ) (riskLevel : String)
  deriving Repr, DecidableEq

/-- The risk level of a Benford report, if any. -/
def BenfordOutput.risk : BenfordOutput → Option String
  | .error _ => none
  | .report _ _ r => some r

/-- `benford_law_analysis` from `src/tools/quality_tools.py`
(lines 615–712): errors out when no positive values exist, otherwise
reports the chi-square statistic and the risk band
(χ² < 15.5 → low, < 20.1 → moderate, else high). -/
def benford_law_analysis (counts : ℕ → ℕ) : BenfordOutput :=
  if benford_total counts = 0 then .error "No valid positive numeric values found"
  else if benford_chi_square counts < 155/10 then
    .report (benford_total counts) (benford_chi_square counts) "low"
  else if benford_chi_square counts < 201/10 then
    .report (benford_total counts) (benford_chi_square counts) "moderate"
  else
    .report (benford_total counts) (benford_chi_square counts) "high"

/-! ## Theorems: C4 -/

theorem benford_rows_all9 (n : ℕ) (hn : n ≠ 0) :
    benford_rows (fun d => if d = 9 then n else 0) = [9] := by
  simp [benford_rows, benfordDigits, List.filter, hn]

theorem benford_total_all9 (n : ℕ) (hn : n ≠ 0) :
    benford_total (fun d => if d = 9 then n else 0) = n := by
  rw [benford_total, benford_rows_all9 n hn]
  simp

theorem benford_chi_all9 (n : ℕ) (hn : n ≠ 0) :
    benford_chi_square (fun d => if d = 9 then n else 0) = 227529/11500 * n := by
  rw [benford_chi_square, benford_rows_all9 n hn, benford_total_all9 n hn]
  have hn0 : (0 : ℚ) < n := by
    exact_mod_cast Nat.pos_of_ne_zero hn
  simp only [List.map_cons, List.map_nil, List.sum_cons, List.sum_nil]
  rw [if_pos]
  · have hne : (46/1000 : ℚ) * n ≠ 0 := by positivity
    simp only [benford_expected, if_pos rfl]
    field_simp
    ring
  · simp only [benford_expected]
    positivity

theorem benford_rows_prop (k : ℕ) (hk : k ≠ 0) :
    benford_rows (fun d => benfordNum d * k) = benfordDigits := by
  simp [benford_rows, benfordDigits, List.filter, benfordNum, hk]

theorem benford_total_prop (k : ℕ) (hk : k ≠ 0) :
    benford_total (fun d => benfordNum d * k) = 1000 * k := by
  rw [benford_total, benford_rows_prop k hk]
  simp only [benfordDigits, List.map_cons, List.map_nil, List.sum_cons, List.sum_nil,
    benfordNum]
  ring

theorem benford_chi_prop (k : ℕ) (hk : k ≠ 0) :
    benford_chi_square (fun d => benfordNum d * k) = 0 := by
  rw [benford_chi_square, benford_rows_prop k hk, benford_total_prop k hk]
  apply List.sum_eq_zero
  intro x hx
  simp only [List.mem_map] at hx
  obtain ⟨d, hd, rfl⟩ := hx
  have hnum : ((benfordNum d * k : ℕ) : ℚ) -
      benford_expected d * ((1000 * k : ℕ) : ℚ) = 0 := by
    fin_cases hd <;>
      · simp only [benfordNum, benford_expected]
        push_cast
        ring
  split
  · rw [hnum]
    simp
  · rfl

/-- C4, counterexample to the claim as stated: the chi-square loop only sums
over digits that occur in the data, so a dataset consisting of a single
value with leading digit 9 has χ² = (1 − 0.046)²/0.046 = 227529/11500 ≈
19.79 < 20.1 and is banded `"moderate"`, not `"high"` as the claim
requires for all-9 datasets. -/
theorem benford_single_nine_counterexample :
    benford_law_analysis (fun d => if d = 9 then 1 else 0) =
      .report 1 (227529/11500) "moderate" ∧
    (BenfordOutput.report 1 (227529/11500) "moderate").risk ≠ some "high" := by
  constructor
  · rw [benford_law_analysis, benford_total_all9 1 one_ne_zero,
      benford_chi_all9 1 one_ne_zero]
    rw [if_neg one_ne_zero, if_neg (by norm_num), if_pos (by norm_num)]
    norm_num
  · simp [BenfordOutput.risk]

/-- C4, amended: `benford_law_analysis` compares the observed leading-digit
counts against the standard three-decimal Benford table (0.301, …, 0.046)
and accumulates the chi-square statistic over the digits that occur in the
data (absent digits contribute nothing); the risk banding is `"low"` for
χ² < 15.5, `"moderate"` for 15.5 ≤ χ² < 20.1, `"high"` otherwise.
Consequently a dataset of any size whose digit counts are exactly
proportional to the table (counts d = benfordNum d · k) has χ² = 0 and is
banded `"low"`, and a dataset of at least two values all with leading
digit 9 is banded `"high"` (one single such value is banded
`"moderate"`). -/
theorem benford_law_analysis_spec :
    (∀ k : ℕ, k ≠ 0 →
      benford_law_analysis (fun d => benfordNum d * k) =
        .report (1000 * k) 0 "low") ∧
    (∀ n : ℕ, 2 ≤ n →
      (benford_law_analysis (fun d => if d = 9 then n else 0)).risk = some "high") ∧
    (∀ counts : ℕ → ℕ, benford_total counts ≠ 0 →
      ((benford_chi_square counts < 155/10 →
          (benford_law_analysis counts).risk = some "low") ∧
       (155/10 ≤ benford_chi_square counts → benford_chi_square counts < 201/10 →
          (benford_law_analysis counts).risk = some "moderate") ∧
       (201/10 ≤ benford_chi_square counts →
          (benford_law_analysis counts).risk = some "high"))) := by
  refine ⟨?_, ?_, ?_⟩
  · intro k hk
    rw [benford_law_analysis, benford_total_prop k hk, benford_chi_prop k hk]
    rw [if_neg (by positivity), if_pos (by norm_num)]
  · intro n hn
    have hne : n ≠ 0 := by omega
    have h2 : (2 : ℚ) ≤ (n : ℚ) := by exact_mod_cast hn
    have hchi : (201 : ℚ)/10 < 227529/11500 * n := by nlinarith
    rw [benford_law_analysis, benford_total_all9 n hne, benford_chi_all9 n hne]
    rw [if_neg hne, if_neg (by nlinarith), if_neg (by nlinarith)]
    rfl
  · intro counts htot
    refine ⟨?_, ?_, ?_⟩
    · intro h
      rw [benford_law_analysis, if_neg htot, if_pos h]
      rfl
    · intro h1 h2
      rw [benford_law_analysis, if_neg htot, if_neg (by linarith), if_pos h2]
      rfl
    · intro h
      rw [benford_law_analysis, if_neg htot, if_neg (by linarith), if_neg (by linarith)]
      rfl

/-- Witness for C4 (amended): a concrete exactly-proportional dataset of
1000 values is banded low; a concrete dataset of two 9-leading values is
banded high; a concrete chi-square below 15.5 is banded low. -/
theorem benford_law_analysis_spec_witness :
    benford_law_analysis (fun d => benfordNum d * 1) = .report 1000 0 "low" ∧
    (benford_law_analysis (fun d => if d = 9 then 2 else 0)).risk = some "high" ∧
    (benford_law_analysis (fun d => benfordNum d * 3)).risk = some "low" := by
  refine ⟨?_, ?_, ?_⟩
  · exact benford_law_analysis_spec.1 1 one_ne_zero
  · exact benford_law_analysis_spec.2.1 2 (le_refl 2)
  · have h := benford_law_analysis_spec.2.2 (fun d => benfordNum d * 3)
      (by rw [benford_total_prop 3 (by norm_num)]; norm_num)
    exact h.1 (by rw [benford_chi_prop 3 (by norm_num)]; norm_num)

/-! ## Read-only query guard (`execute_query`, `src/tools/sql_tools.py`) -/

/-- Python `str.strip()`: drop leading and trailing whitespace (modelled on
the character list of the string). -/
def pyStrip (s : String) : String :=
  ⟨((s.data.dropWhile Char.isWhitespace).reverse.dropWhile Char.isWhitespace).reverse⟩

/-- Python `str.upper()` (modelled on the character list). -/
def pyUpper (s : String) : String :=
  ⟨s.data.map Char.toUpper⟩

/-- Python `str.startswith(p)`. -/
def pyStarts (s p : String) : Bool :=
  p.data.isPrefixOf s.data

/-- `sql.strip().upper()` — the normalized query the guard inspects. -/
def normalizeSql (sql : String) : String :=
  pyUpper (pyStrip sql)

/-- Observable outcome of `execute_query`: either the guard rejects the
statement with an error payload before touching the engine, or the
statement is handed to the engine for execution. -/
inductive QueryOutcome where
  | rejected (errorMsg : String)
  | executed
  deriving Repr, DecidableEq

/-- The guard of `execute_query` from `src/tools/sql_tools.py`
(lines 20–51): only statements whose normalized text starts with `SELECT`
or `WITH` reach `engine.connect()` / `conn.execute`; everything else gets
the error result before any execution. -/
def execute_query_guarded (sql : String) : QueryOutcome :=
  if pyStarts (normalizeSql sql) "SELECT" = false ∧
      pyStarts (normalizeSql sql) "WITH" = false then
    .rejected "Only SELECT/WITH queries are permitted."
  else
    .executed

/-- A destructive statement, per the claim: the statement (after
normalization) is one of the DROP/ALTER/DELETE/INSERT/UPDATE commands,
identified by its leading keyword. -/
def is_destructive (sql : String) : Bool :=
  ["DROP", "ALTER", "DELETE", "INSERT", "UPDATE"].any fun k =>
    pyStarts (normalizeSql sql) k

theorem pyStarts_head {s p : String} {c : Char} {rest : List Char}
    (hp : p.data = c :: rest) (h : pyStarts s p = true) :
    s.data.head? = some c := by
  rw [pyStarts, hp] at h
  cases hs : s.data with
  | nil => rw [hs] at h; simp [List.isPrefixOf] at h
  | cons a l =>
    rw [hs] at h
    simp only [List.isPrefixOf, Bool.and_eq_true, beq_iff_eq] at h
    rw [h.1]
    rfl

/-! ## Theorems: C9 -/

/-- C9: every destructive statement (leading keyword
DROP/ALTER/DELETE/INSERT/UPDATE after normalization) is rejected by the
query-surface guard with an error result before any execution, and only
statements whose normalized text starts with SELECT or WITH are ever
executed by `execute_query`. -/
theorem execute_query_guard_spec :
    (∀ sql : String, is_destructive sql = true →
      execute_query_guarded sql = .rejected "Only SELECT/WITH queries are permitted.") ∧
    (∀ sql : String, execute_query_guarded sql = .executed →
      (pyStarts (normalizeSql sql) "SELECT" = true ∨
       pyStarts (normalizeSql sql) "WITH" = true)) := by
  constructor
  · intro sql h
    simp only [is_destructive, List.any_eq_true] at h
    obtain ⟨k, hk, hpre⟩ := h
    rw [execute_query_guarded, if_pos]
    constructor
    · rw [Bool.eq_false_iff]
      intro hs
      have hS : (normalizeSql sql).data.head? = some (Char.ofNat 83) :=
        pyStarts_head rfl hs
      fin_cases hk <;>
        · have hK := pyStarts_head rfl hpre
          rw [hK] at hS
          simp at hS
    · rw [Bool.eq_false_iff]
      intro hs
      have hW : (normalizeSql sql).data.head? = some (Char.ofNat 87) :=
        pyStarts_head rfl hs
      fin_cases hk <;>
        · have hK := pyStarts_head rfl hpre
          rw [hK] at hW
          simp at hW
  · intro sql h
    by_cases hc : pyStarts (normalizeSql sql) "SELECT" = false ∧
        pyStarts (normalizeSql sql) "WITH" = false
    · rw [execute_query_guarded, if_pos hc] at h
      exact absurd h (by simp)
    · rcases not_and_or.mp hc with h1 | h1
      · exact Or.inl (Bool.not_eq_false _ |>.mp h1)
      · exact Or.inr (Bool.not_eq_false _ |>.mp h1)

/-- Witness for C9: the concrete statement `"DROP TABLE users"` is
destructive and rejected; the concrete statement `" select 1"` is executed
and indeed starts with SELECT after normalization. -/
theorem execute_query_guard_spec_witness :
    is_destructive "DROP TABLE users" = true ∧
    execute_query_guarded "DROP TABLE users" =
      .rejected "Only SELECT/WITH queries are permitted." ∧
    execute_query_guarded " select 1" = .executed ∧
    (pyStarts (normalizeSql " select 1") "SELECT" = true ∨
     pyStarts (normalizeSql " select 1") "WITH" = true) := by
  refine ⟨by decide, ?_, by decide, ?_⟩
  · exact execute_query_guard_spec.1 "DROP TABLE users" (by decide)
  · exact execute_query_guard_spec.2 " select 1" (by decide)

/-! ## Engine selection (`get_engine`, `src/core/db_connectors.py`) -/

/-- Python `pat in s` substring containment. -/
def containsSub (s pat : String) : Bool :=
  s.data.tails.any fun t => pat.data.isPrefixOf t

/-- Fuel-indexed helper for Python `str.replace` (replace all occurrences);
any fuel > length of the subject suffices for a non-empty pattern. -/
def replaceAllAux : ℕ → List Char → List Char → List Char → List Char
  | 0, _, _, _ => []
  | _ + 1, [], _, _ => []
  | fuel + 1, c :: rest, pat, repl =>
    if pat.isPrefixOf (c :: rest) then
      repl ++ replaceAllAux fuel ((c :: rest).drop pat.length) pat repl
    else
      c :: replaceAllAux fuel rest pat repl

/-- Python `s.replace(pat, repl)` (all occurrences). -/
def pyReplace (s pat repl : String) : String :=
  ⟨replaceAllAux (s.data.length + 1) s.data pat.data repl.data⟩

/-- The backend `get_engine` ends up constructing / returning.  The
`engineUnavailable` constructor represents the fatal `EngineUnavailable`
error posited by the spec; the source never produces it. -/
inductive EngineChoice where
  | duckdbFromUrl (path : String)
  | serverFromUrl (url : String)
  | serverFromEnv (url : String)
  | localDuckdb
  | engineUnavailable
  deriving Repr, DecidableEq

/-- The environment/default branch of `get_engine`: a truthy `DATABASE_URL`
containing `"postgresql"` is probed (`SELECT 1`); on probe success that
engine is returned, on probe failure the code logs a warning and falls
through to the local DuckDB default (cached singleton, created on first
connect if the file is absent). -/
def get_engine_env (databaseUrl : String) (probeOk : Bool) : EngineChoice :=
  if databaseUrl ≠ "" ∧ containsSub databaseUrl "postgresql" = true then
    if probeOk then .serverFromEnv databaseUrl else .localDuckdb
  else
    .localDuckdb

/-- `get_engine` from `src/core/db_connectors.py` (lines 228–265).
`dbUrl` is `db_config["url"]` when `db_config` is truthy and carries the
key (`none` otherwise), `databaseUrl` is the `DATABASE_URL` env/config
value (`""` when unset), `probeOk` tells whether the `SELECT 1` liveness
probe of the configured server succeeds. -/
def get_engine (dbUrl : Option String) (databaseUrl : String)
    (probeOk : Bool) : EngineChoice :=
  match dbUrl with
  | some url =>
    if url ≠ "" then
      if containsSub url "duckdb" then .duckdbFromUrl (pyReplace url "duckdb:///" "")
      else .serverFromUrl url
    else get_engine_env databaseUrl probeOk
  | none => get_engine_env databaseUrl probeOk

/-- Modelled from the spec: the claim says that in the server case, if the
configured server is unreachable, construction raises `EngineUnavailable`.
Identical to `get_engine` except for that branch. -/
def get_engine_claimed (dbUrl : Option String) (databaseUrl : String)
    (probeOk : Bool) : EngineChoice :=
  match dbUrl with
  | some url =>
    if url ≠ "" then
      if containsSub url "duckdb" then .duckdbFromUrl (pyReplace url "duckdb:///" "")
      else .serverFromUrl url
    else if databaseUrl ≠ "" ∧ containsSub databaseUrl "postgresql" = true then
      if probeOk then .serverFromEnv databaseUrl else .engineUnavailable
    else .localDuckdb
  | none =>
    if databaseUrl ≠ "" ∧ containsSub databaseUrl "postgresql" = true then
      if probeOk then .serverFromEnv databaseUrl else .engineUnavailable
    else .localDuckdb

/-! ## Theorems: C8 -/

/-- C8, counterexample to the claim as stated: with no caller URL, a
configured PostgreSQL `DATABASE_URL` and a failing liveness probe, the code
returns the local embedded DuckDB engine, whereas the claim mandates an
`EngineUnavailable` error — the two disagree at this concrete input. -/
theorem get_engine_unreachable_counterexample :
    get_engine none "postgresql://host/db" false = .localDuckdb ∧
    get_engine_claimed none "postgresql://host/db" false = .engineUnavailable ∧
    get_engine none "postgresql://host/db" false ≠
      get_engine_claimed none "postgresql://host/db" false := by
  refine ⟨by decide, by decide, by decide⟩

/-- C8, amended: engine construction selects the backend by priority —
(1) a non-empty caller-supplied URL wins (a URL containing `"duckdb"`
yields the embedded engine on the URL path, anything else a server engine
on that URL), regardless of environment and probe; (2) otherwise a
non-empty `DATABASE_URL` containing `"postgresql"` whose `SELECT 1` probe
succeeds yields the server engine; (3) otherwise — including the case of a
configured but unreachable server, which only logs a warning — construction
falls back to the local embedded DuckDB engine file, and `EngineUnavailable`
is never raised. -/
theorem get_engine_priority_spec :
    (∀ (url databaseUrl : String) (p : Bool), url ≠ "" →
      containsSub url "duckdb" = true →
      get_engine (some url) databaseUrl p =
        .duckdbFromUrl (pyReplace url "duckdb:///" "")) ∧
    (∀ (url databaseUrl : String) (p : Bool), url ≠ "" →
      containsSub url "duckdb" = false →
      get_engine (some url) databaseUrl p = .serverFromUrl url) ∧
    (∀ databaseUrl : String, databaseUrl ≠ "" →
      containsSub databaseUrl "postgresql" = true →
      get_engine none databaseUrl true = .serverFromEnv databaseUrl) ∧
    (∀ databaseUrl : String, databaseUrl ≠ "" →
      containsSub databaseUrl "postgresql" = true →
      get_engine none databaseUrl false = .localDuckdb) ∧
    (∀ (databaseUrl : String) (p : Bool),
      ¬(databaseUrl ≠ "" ∧ containsSub databaseUrl "postgresql" = true) →
      get_engine none databaseUrl p = .localDuckdb) ∧
    (∀ (databaseUrl : String) (p : Bool),
      get_engine (some "") databaseUrl p = get_engine none databaseUrl p) ∧
    (∀ (dbUrl : Option String) (databaseUrl : String) (p : Bool),
      get_engine dbUrl databaseUrl p ≠ .engineUnavailable) := by
  refine ⟨?_, ?_, ?_, ?_, ?_, ?_, ?_⟩
  · intro url db p hne hd
    simp [get_engine, hne, hd]
  · intro url db p hne hd
    simp [get_engine, hne, hd]
  · intro db hne hp
    simp [get_engine, get_engine_env, hne, hp]
  · intro db hne hp
    simp [get_engine, get_engine_env, hne, hp]
  · intro db p hc
    simp [get_engine, get_engine_env, hc]
  · intro db p
    simp [get_engine]
  · intro dbUrl db p
    rcases dbUrl with - | url
    · rw [get_engine, get_engine_env]
      split
      · split <;> simp
      · simp
    · rw [get_engine]
      split
      · split <;> simp
      · rw [get_engine_env]
        split
        · split <;> simp
        · simp

/-- Witness for C8 (amended): concrete instances of each priority clause. -/
theorem get_engine_priority_spec_witness :
    get_engine (some "duckdb:///tmp/x.db") "postgresql://ignored" false =
      .duckdbFromUrl (pyReplace "duckdb:///tmp/x.db" "duckdb:///" "") ∧
    get_engine (some "postgresql://caller/db") "" true =
      .serverFromUrl "postgresql://caller/db" ∧
    get_engine none "postgresql://host/db" true =
      .serverFromEnv "postgresql://host/db" ∧
    get_engine none "postgresql://host/db" false = .localDuckdb ∧
    get_engine none "" true = .localDuckdb ∧
    get_engine (some "") "" false = get_engine none "" false ∧
    get_engine none "mysql://host/db" true ≠ .engineUnavailable := by
  refine ⟨?_, ?_, ?_, ?_, ?_, ?_, ?_⟩
  · exact get_engine_priority_spec.1 _ _ _ (by decide) (by decide)
  · exact get_engine_priority_spec.2.1 _ _ _ (by decide) (by decide)
  · exact get_engine_priority_spec.2.2.1 _ (by decide) (by decide)
  · exact get_engine_priority_spec.2.2.2.1 _ (by decide) (by decide)
  · exact get_engine_priority_spec.2.2.2.2.1 _ _ (by decide)
  · exact get_engine_priority_spec.2.2.2.2.2.1 _ _
  · exact get_engine_priority_spec.2.2.2.2.2.2 _ _ _

/-! ## Correlation matrix (`compute_correlation_matrix`)

The nested dicts `matrix : dict[str, dict[str, float]]` are modelled as
`String → Option (String → Option ℚ)`: only lookups matter to the claims.
`matrix[col1][col2] = v` is modelled through `msetEntry`, which
get-or-creates the row — identical to the source on every executed path,
where the outer key is always present when the subscript assignment runs. -/

/-- Nested-dict correlation matrix. -/
def CorrMatrix : Type := String → Option (String → Option ℚ)

/-- The empty inner dict. -/
def emptyRow : String → Option ℚ := fun _ => none

/-- `matrix[k] = row`. -/
def mset (m : CorrMatrix) (k : String) (row : String → Option ℚ) : CorrMatrix :=
  fun x => if x = k then some row else m x

/-- `row[k] = v`. -/
def rset (r : String → Option ℚ) (k : String) (v : ℚ) : String → Option ℚ :=
  fun x => if x = k then some v else r x

/-- `matrix[k1][k2] = v` (get-or-create the row, then set the entry). -/
def msetEntry (m : CorrMatrix) (k1 k2 : String) (v : ℚ) : CorrMatrix :=
  mset m k1 (rset ((m k1).getD emptyRow) k2 v)

/-- `matrix.get(a, \x7b\x7d).get(b)`: the entry at row `a`, column `b`. -/
def lookup2 (m : CorrMatrix) (a b : String) : Option ℚ :=
  (m a).bind fun r => r b

/-- Body of the inner `for j, col2 in enumerate(numeric_cols)` loop of
`compute_correlation_matrix` (`src/tools/quality_tools.py`,
lines 761–793): the diagonal gets `1.0`; for `j > i` the fetched Pearson
correlation (`CORR(col1, col2)`, coerced `None`/falsy → `0`, rounded to 4
decimals) is written at `[col1][col2]` and mirrored at `[col2][col1]`
after get-or-creating row `col2`. -/
def corr_step (corrQ : String → String → Option ℚ) (i j : ℕ)
    (col1 col2 : String) (m : CorrMatrix) : CorrMatrix :=
  if i = j then
    msetEntry m col1 col2 1
  else if i < j then
    msetEntry
      (mset (msetEntry m col1 col2 (round4 ((corrQ col1 col2).getD 0))) col2
        ((msetEntry m col1 col2 (round4 ((corrQ col1 col2).getD 0)) col2).getD emptyRow))
      col2 col1 (round4 ((corrQ col1 col2).getD 0))
  else m

/-- The inner loop: iterate `corr_step` over the remaining columns,
tracking the running index `j`. -/
def corr_inner (corrQ : String → String → Option ℚ) (i : ℕ) (col1 : String) :
    ℕ → List String → CorrMatrix → CorrMatrix
  | _, [], m => m
  | j, col2 :: rest, m =>
    corr_inner corrQ i col1 (j + 1) rest (corr_step corrQ i j col1 col2 m)

/-- The outer loop `for i, col1 in enumerate(numeric_cols)`: each iteration
starts with `matrix[col1] = \x7b\x7d` (wiping any entries the symmetric writes
of earlier iterations put there), then runs the inner loop over all
columns. -/
def corr_outer (corrQ : String → String → Option ℚ) (cols : List String) :
    ℕ → List String → CorrMatrix → CorrMatrix
  | _, [], m => m
  | i, col1 :: rest, m =>
    corr_outer corrQ cols (i + 1) rest
      (corr_inner corrQ i col1 0 cols (mset m col1 emptyRow))

/-- The matrix built by the nested loops of `compute_correlation_matrix`. -/
def corr_matrix (cols : List String) (corrQ : String → String → Option ℚ) :
    CorrMatrix :=
  corr_outer corrQ cols 0 cols (fun _ => none)

/-- Output of `compute_correlation_matrix`: the guard errors out with fewer
than two numeric columns, otherwise the built matrix is reported (the
`significant_correlations` list is derived data and not modelled). -/
inductive CorrOutput where
  | error (msg : String)
  | result (m : CorrMatrix)

/-- Entry accessor on the output. -/
def CorrOutput.entry : CorrOutput → String → String → Option ℚ
  | .error _, _, _ => none
  | .result m, a, b => lookup2 m a b

/-- `compute_correlation_matrix` from `src/tools/quality_tools.py`
(lines 719–803), with the per-pair SQL `CORR` results supplied by
`corrQ`. -/
def compute_correlation_matrix (cols : List String)
    (corrQ : String → String → Option ℚ) : CorrOutput :=
  if cols.length < 2 then .error "Need at least 2 numeric columns for correlation"
  else .result (corr_matrix cols corrQ)

/-! ### Lookup lemmas and loop invariants for the correlation matrix -/

theorem getD_row_eq (m : CorrMatrix) (k b : String) :
    ((m k).getD emptyRow) b = lookup2 m k b := by
  cases h : m k <;> simp [lookup2, h, emptyRow]

theorem lookup2_mset (m : CorrMatrix) (k : String) (row : String → Option ℚ)
    (a b : String) :
    lookup2 (mset m k row) a b = if a = k then row b else lookup2 m a b := by
  simp only [lookup2, mset]
  split <;> rfl

theorem lookup2_msetEntry (m : CorrMatrix) (k1 k2 : String) (v : ℚ)
    (a b : String) :
    lookup2 (msetEntry m k1 k2 v) a b =
      if a = k1 then (if b = k2 then some v else lookup2 m k1 b)
      else lookup2 m a b := by
  rw [msetEntry, lookup2_mset]
  by_cases h : a = k1
  · rw [if_pos h, if_pos h]
    simp only [rset]
    rw [getD_row_eq]
  · rw [if_neg h, if_neg h]

theorem lookup2_getOrCreate (m : CorrMatrix) (k : String) (a b : String) :
    lookup2 (mset m k ((m k).getD emptyRow)) a b = lookup2 m a b := by
  rw [lookup2_mset]
  split_ifs with h
  · rw [h, getD_row_eq]
  · rfl

/-- The `i`-th column name (out-of-range arguments give `""`; all uses are
in range). -/
def colAt (cols : List String) (k : ℕ) : String := cols.getD k ""

theorem colAt_inj {cols : List String} (hnd : cols.Nodup) {a b : ℕ}
    (ha : a < cols.length) (hb : b < cols.length) :
    colAt cols a = colAt cols b ↔ a = b := by
  rw [colAt, colAt, List.getD_eq_getElem cols "" ha, List.getD_eq_getElem cols "" hb]
  exact hnd.getElem_inj_iff

/-- The rounded coerced correlation the loop stores for the ordered pair
`(a, b)` of column indices. -/
def corrVal (cols : List String) (corrQ : String → String → Option ℚ)
    (a b : ℕ) : ℚ :=
  round4 ((corrQ (colAt cols a) (colAt cols b)).getD 0)

/-- Matrix contents while the inner loop of outer iteration `i` has
processed inner indices `< jdone` (rows with index `< i` are final, row `i`
is filled up to `jdone`, rows `> i` hold the symmetric writes of earlier
outer iterations plus — once `jdone` has passed them — the one of iteration
`i`). -/
def innerDescr (cols : List String) (corrQ : String → String → Option ℚ)
    (i jdone k j : ℕ) : Option ℚ :=
  if k < i then
    (if j = k then some 1 else if k < j then some (corrVal cols corrQ k j) else none)
  else if k = i then
    (if j < jdone then
      (if j = i then some 1 else if i < j then some (corrVal cols corrQ i j) else none)
     else none)
  else
    (if j < i then some (corrVal cols corrQ j k)
     else if j = i ∧ k < jdone then some (corrVal cols corrQ i k)
     else none)

/-- Matrix contents after the first `t` outer iterations have completed. -/
def outerDescr (cols : List String) (corrQ : String → String → Option ℚ)
    (t k j : ℕ) : Option ℚ :=
  if k < t then
    (if j = k then some 1 else if k < j then some (corrVal cols corrQ k j) else none)
  else
    (if j < t then some (corrVal cols corrQ j k) else none)

/-- Invariant of the inner loop. -/
def InnerInv (cols : List String) (corrQ : String → String → Option ℚ)
    (i jdone : ℕ) (m : CorrMatrix) : Prop :=
  ∀ k j, k < cols.length → j < cols.length →
    lookup2 m (colAt cols k) (colAt cols j) = innerDescr cols corrQ i jdone k j

/-- Invariant of the outer loop. -/
def OuterInv (cols : List String) (corrQ : String → String → Option ℚ)
    (t : ℕ) (m : CorrMatrix) : Prop :=
  ∀ k j, k < cols.length → j < cols.length →
    lookup2 m (colAt cols k) (colAt cols j) = outerDescr cols corrQ t k j

theorem corr_step_inv (cols : List String) (corrQ : String → String → Option ℚ)
    (hnd : cols.Nodup) (i jd : ℕ) (hi : i < cols.length) (hjd : jd < cols.length)
    (m : CorrMatrix) (hm : InnerInv cols corrQ i jd m) :
    InnerInv cols corrQ i (jd + 1)
      (corr_step corrQ i jd (colAt cols i) (colAt cols jd) m) := by
  intro k j hk hj
  have hm_ij := hm i j hi hj
  have hm_jdj := hm jd j hjd hj
  have hm_kj := hm k j hk hj
  have eki : (colAt cols k = colAt cols i) = (k = i) := propext (colAt_inj hnd hk hi)
  have ekjd : (colAt cols k = colAt cols jd) = (k = jd) := propext (colAt_inj hnd hk hjd)
  have eji : (colAt cols j = colAt cols i) = (j = i) := propext (colAt_inj hnd hj hi)
  have ejjd : (colAt cols j = colAt cols jd) = (j = jd) := propext (colAt_inj hnd hj hjd)
  have ejdi : (colAt cols jd = colAt cols i) = (jd = i) := propext (colAt_inj hnd hjd hi)
  have eijd : (colAt cols i = colAt cols jd) = (i = jd) := propext (colAt_inj hnd hi hjd)
  rw [corr_step]
  rcases Nat.lt_trichotomy i jd with hij | hij | hij
  · rw [if_neg (by omega), if_pos hij]
    by_cases hkjd : k = jd
    · subst hkjd
      by_cases hji : j = i
      · subst hji
        rw [lookup2_msetEntry, if_pos rfl, if_pos rfl]
        simp only [innerDescr, corrVal]
        split_ifs <;> first
          | rfl
          | omega
          | (simp only [true_and, and_true, not_true, false_and] at *; omega)
      · rw [lookup2_msetEntry, if_pos rfl, if_neg (by rw [eji]; exact hji)]
        rw [lookup2_getOrCreate, lookup2_msetEntry, if_neg (by rw [ejdi]; omega)]
        rw [hm_jdj]
        simp only [innerDescr, corrVal]
        split_ifs <;> first | rfl | omega
    · by_cases hki : k = i
      · subst hki
        rw [lookup2_msetEntry, if_neg (by rw [eijd]; omega)]
        rw [lookup2_getOrCreate, lookup2_msetEntry, if_pos rfl]
        by_cases hjjd2 : j = jd
        · subst hjjd2
          rw [if_pos rfl]
          simp only [innerDescr, corrVal]
          split_ifs <;> first | rfl | omega
        · rw [if_neg (by rw [ejjd]; exact hjjd2)]
          rw [hm_ij]
          simp only [innerDescr, corrVal]
          split_ifs <;> first | rfl | omega
      · rw [lookup2_msetEntry, if_neg (by rw [ekjd]; exact hkjd)]
        rw [lookup2_getOrCreate, lookup2_msetEntry, if_neg (by rw [eki]; exact hki)]
        rw [hm_kj]
        simp only [innerDescr, corrVal]
        split_ifs <;> first | rfl | omega
  · rw [if_pos hij]
    by_cases hki : k = i
    · have hcol : colAt cols k = colAt cols i := by rw [eki]; exact hki
      rw [lookup2_msetEntry, if_pos hcol]
      by_cases hjjd2 : j = jd
      · have hcol2 : colAt cols j = colAt cols jd := by rw [ejjd]; exact hjjd2
        rw [if_pos hcol2]
        simp only [innerDescr, corrVal]
        split_ifs <;> first | rfl | omega
      · rw [if_neg (by rw [ejjd]; exact hjjd2)]
        rw [hm_ij]
        simp only [innerDescr, corrVal]
        split_ifs <;> first | rfl | omega
    · rw [lookup2_msetEntry, if_neg (by rw [eki]; exact hki)]
      rw [hm_kj]
      simp only [innerDescr, corrVal]
      split_ifs <;> first | rfl | omega
  · rw [if_neg (by omega), if_neg (by omega)]
    rw [hm_kj]
    simp only [innerDescr, corrVal]
    split_ifs <;> first | rfl | omega

theorem innerDescr_saturate (cols : List String) (corrQ : String → String → Option ℚ)
    (i jd k j : ℕ) (hlen : cols.length ≤ jd) (hj : j < cols.length)
    (hk : k < cols.length) :
    innerDescr cols corrQ i jd k j = innerDescr cols corrQ i cols.length k j := by
  simp only [innerDescr]
  split_ifs <;> first | rfl | omega

theorem outerDescr_saturate (cols : List String) (corrQ : String → String → Option ℚ)
    (t k j : ℕ) (hlen : cols.length ≤ t) (hj : j < cols.length)
    (hk : k < cols.length) :
    outerDescr cols corrQ t k j = outerDescr cols corrQ cols.length k j := by
  simp only [outerDescr]
  split_ifs <;> first | rfl | omega

theorem corr_inner_inv (cols : List String) (corrQ : String → String → Option ℚ)
    (hnd : cols.Nodup) (i : ℕ) (hi : i < cols.length) :
    ∀ (rest : List String) (jd : ℕ) (m : CorrMatrix),
      rest = cols.drop jd → InnerInv cols corrQ i jd m →
      InnerInv cols corrQ i cols.length
        (corr_inner corrQ i (colAt cols i) jd rest m) := by
  intro rest
  induction rest with
  | nil =>
    intro jd m hdrop hm k j hk hj
    have hlen : cols.length ≤ jd := by
      by_contra h
      push_neg at h
      rw [List.drop_eq_getElem_cons h] at hdrop
      exact List.noConfusion hdrop
    rw [corr_inner, hm k j hk hj]
    exact innerDescr_saturate cols corrQ i jd k j hlen hj hk
  | cons c2 rest ih =>
    intro jd m hdrop hm
    have hjd : jd < cols.length := by
      by_contra h
      push_neg at h
      rw [List.drop_eq_nil_of_le h] at hdrop
      exact List.noConfusion hdrop
    rw [List.drop_eq_getElem_cons hjd, List.cons.injEq] at hdrop
    have hc2 : c2 = colAt cols jd := by
      rw [hdrop.1, colAt, List.getD_eq_getElem cols "" hjd]
    have hrest : rest = cols.drop (jd + 1) := hdrop.2
    rw [corr_inner, hc2]
    exact ih (jd + 1) _ hrest (corr_step_inv cols corrQ hnd i jd hi hjd m hm)

theorem wipe_inv (cols : List String) (corrQ : String → String → Option ℚ)
    (hnd : cols.Nodup) (t : ℕ) (ht : t < cols.length) (m : CorrMatrix)
    (hm : OuterInv cols corrQ t m) :
    InnerInv cols corrQ t 0 (mset m (colAt cols t) emptyRow) := by
  intro k j hk hj
  rw [lookup2_mset]
  by_cases hkt : colAt cols k = colAt cols t
  · rw [if_pos hkt]
    have hk_t : k = t := (colAt_inj hnd hk ht).mp hkt
    simp only [innerDescr, emptyRow, hk_t]
    split_ifs <;> first | rfl | omega
  · rw [if_neg hkt, hm k j hk hj]
    have hk_t : k ≠ t := fun h => hkt (by rw [h])
    simp only [innerDescr, outerDescr]
    split_ifs <;> first | rfl | omega

theorem inner_to_outer (cols : List String) (corrQ : String → String → Option ℚ)
    (t k j : ℕ) (hk : k < cols.length) (hj : j < cols.length) :
    innerDescr cols corrQ t cols.length k j = outerDescr cols corrQ (t + 1) k j := by
  by_cases hjt : j = t
  · subst hjt
    simp only [innerDescr, outerDescr]
    split_ifs <;> first
      | rfl
      | omega
      | (simp only [true_and, and_true, not_true, false_and] at *; omega)
  · simp only [innerDescr, outerDescr]
    split_ifs <;> first | rfl | omega | (subst_vars; rfl)

theorem corr_outer_inv (cols : List String) (corrQ : String → String → Option ℚ)
    (hnd : cols.Nodup) :
    ∀ (rest : List String) (t : ℕ) (m : CorrMatrix),
      rest = cols.drop t → OuterInv cols corrQ t m →
      OuterInv cols corrQ cols.length (corr_outer corrQ cols t rest m) := by
  intro rest
  induction rest with
  | nil =>
    intro t m hdrop hm k j hk hj
    have hlen : cols.length ≤ t := by
      by_contra h
      push_neg at h
      rw [List.drop_eq_getElem_cons h] at hdrop
      exact List.noConfusion hdrop
    rw [corr_outer, hm k j hk hj]
    exact outerDescr_saturate cols corrQ t k j hlen hj hk
  | cons c1 rest ih =>
    intro t m hdrop hm
    have ht : t < cols.length := by
      by_contra h
      push_neg at h
      rw [List.drop_eq_nil_of_le h] at hdrop
      exact List.noConfusion hdrop
    rw [List.drop_eq_getElem_cons ht, List.cons.injEq] at hdrop
    have hc1 : c1 = colAt cols t := by
      rw [hdrop.1, colAt, List.getD_eq_getElem cols "" ht]
    have hrest : rest = cols.drop (t + 1) := hdrop.2
    rw [corr_outer, hc1]
    apply ih (t + 1) _ hrest
    have h0 : InnerInv cols corrQ t 0 (mset m (colAt cols t) emptyRow) :=
      wipe_inv cols corrQ hnd t ht m hm
    have hend := corr_inner_inv cols corrQ hnd t ht cols 0
      (mset m (colAt cols t) emptyRow) (List.drop_zero cols).symm h0
    intro k j hk hj
    rw [hend k j hk hj]
    exact inner_to_outer cols corrQ t k j hk hj

/-- Characterization of the matrix the nested loops build (distinct column
names): diagonal `1.0`, the rounded correlation above the diagonal, and
nothing below it. -/
theorem corr_matrix_entry (cols : List String)
    (corrQ : String → String → Option ℚ) (hnd : cols.Nodup) (k j : ℕ)
    (hk : k < cols.length) (hj : j < cols.length) :
    lookup2 (corr_matrix cols corrQ) (colAt cols k) (colAt cols j) =
      (if j = k then some 1
       else if k < j then some (corrVal cols corrQ k j)
       else none) := by
  have hstart : OuterInv cols corrQ 0 (fun _ => none) := by
    intro k j hk hj
    simp only [outerDescr, lookup2]
    split_ifs <;> first | rfl | omega
  have h := corr_outer_inv cols corrQ hnd cols 0 (fun _ => none)
    (List.drop_zero cols).symm hstart
  rw [corr_matrix, h k j hk hj, outerDescr, if_pos hk]

/-! ## Theorems: C5 -/

/-- C5, counterexample to the claim as stated: over the two columns
`["a", "b"]`, the produced matrix has `matrix["a"]["b"]` set to the rounded
correlation but `matrix["b"]["a"]` absent — the outer iteration for `"b"`
reinitializes `matrix["b"] = \x7b\x7d`, wiping the symmetric entry — so the
matrix is not symmetric. -/
theorem compute_correlation_matrix_symmetry_counterexample :
    (compute_correlation_matrix ["a", "b"] (fun _ _ => some (1/2))).entry "a" "b" =
      some (round4 (1/2)) ∧
    (compute_correlation_matrix ["a", "b"] (fun _ _ => some (1/2))).entry "b" "a" =
      none ∧
    (compute_correlation_matrix ["a", "b"] (fun _ _ => some (1/2))).entry "a" "b" ≠
      (compute_correlation_matrix ["a", "b"] (fun _ _ => some (1/2))).entry "b" "a" :=
  ⟨rfl, rfl, fun h => Option.noConfusion h⟩

/-- C5, amended: for every correlation matrix produced by
`compute_correlation_matrix` over at least two distinct numeric columns,
every diagonal entry `matrix[a][a]` is exactly `1.0`; the matrix however is
upper-triangular rather than symmetric: for columns `a` before `b` in the
analyzed order, `matrix[a][b]` holds the rounded pairwise correlation while
`matrix[b][a]` is absent (each outer iteration reinitializes its row,
discarding the symmetric entries written by earlier iterations). -/
theorem compute_correlation_matrix_spec :
    (∀ (cols : List String) (corrQ : String → String → Option ℚ),
      cols.Nodup → 2 ≤ cols.length → ∀ k, k < cols.length →
        (compute_correlation_matrix cols corrQ).entry (colAt cols k) (colAt cols k) =
          some 1) ∧
    (∀ (cols : List String) (corrQ : String → String → Option ℚ),
      cols.Nodup → 2 ≤ cols.length → ∀ k j, k < j → j < cols.length →
        (compute_correlation_matrix cols corrQ).entry (colAt cols k) (colAt cols j) =
          some (corrVal cols corrQ k j) ∧
        (compute_correlation_matrix cols corrQ).entry (colAt cols j) (colAt cols k) =
          none) := by
  constructor
  · intro cols corrQ hnd hlen k hk
    rw [compute_correlation_matrix, if_neg (by omega)]
    show lookup2 (corr_matrix cols corrQ) (colAt cols k) (colAt cols k) = some 1
    rw [corr_matrix_entry cols corrQ hnd k k hk hk, if_pos rfl]
  · intro cols corrQ hnd hlen k j hkj hj
    have hk : k < cols.length := by omega
    constructor
    · rw [compute_correlation_matrix, if_neg (by omega)]
      show lookup2 (corr_matrix cols corrQ) (colAt cols k) (colAt cols j) = _
      rw [corr_matrix_entry cols corrQ hnd k j hk hj,
        if_neg (by omega), if_pos hkj]
    · rw [compute_correlation_matrix, if_neg (by omega)]
      show lookup2 (corr_matrix cols corrQ) (colAt cols j) (colAt cols k) = none
      rw [corr_matrix_entry cols corrQ hnd j k hj hk,
        if_neg (by omega), if_neg (by omega)]

/-- Witness for C5 (amended): concrete two-column instance. -/
theorem compute_correlation_matrix_spec_witness :
    (compute_correlation_matrix ["x", "y"] (fun _ _ => some (3/10))).entry
      (colAt ["x", "y"] 0) (colAt ["x", "y"] 0) = some 1 ∧
    (compute_correlation_matrix ["x", "y"] (fun _ _ => some (3/10))).entry
      (colAt ["x", "y"] 0) (colAt ["x", "y"] 1) =
      some (corrVal ["x", "y"] (fun _ _ => some (3/10)) 0 1) ∧
    (compute_correlation_matrix ["x", "y"] (fun _ _ => some (3/10))).entry
      (colAt ["x", "y"] 1) (colAt ["x", "y"] 0) = none := by
  refine ⟨?_, ?_, ?_⟩
  · exact compute_correlation_matrix_spec.1 ["x", "y"] _ (by decide) (by decide) 0
      (by decide)
  · exact (compute_correlation_matrix_spec.2 ["x", "y"] _ (by decide) (by decide) 0 1
      (by decide) (by decide)).1
  · exact (compute_correlation_matrix_spec.2 ["x", "y"] _ (by decide) (by decide) 0 1
      (by decide) (by decide)).2

end NeuroFabric